import Mathlib

set_option maxHeartbeats 1000000

/- Shallow embedding of the streaming transcript aggregator of the
   claude-code-telegram repository: `src/claude/agent.py`
   (ClaudeAgentClient.stream_message) and `src/bot/handlers/message.py`
   (stream_handler, _update_stream_message, and the turn teardown in
   handle_text_message).  Python strings are modelled as `List Char`
   (except short formatting leaves, which use `String`), event-loop
   times as `Rat`, Telegram message objects as opaque `Nat` handles. -/

/-- JSON-ish value held in a tool-input dict.  The embedding covers the two
shapes the rendering code inspects: strings and lists of strings. -/
inductive IVal where
  | s (v : String)
  | ls (vs : List String)
  deriving DecidableEq

/-- Tool input dict, as the association list of its items. -/
abbrev ToolInput := List (String × IVal)

/-- Per-session state kept in ClaudeAgentClient.session_states
(agent.py lines 84-90): "total_blocks_seen" and "current_text_content". -/
structure SessionState where
  total_blocks_seen : Nat
  current_text_content : List Char
  deriving DecidableEq

/-- State created for a session id not yet in session_states
(agent.py lines 84-88). -/
def freshSessionState : SessionState := ⟨0, []⟩

/-- Content block of an SDK AssistantMessage (agent.py lines 100-136):
a TextBlock or a ToolUseBlock. -/
inductive Block where
  | textB (text : List Char)
  | toolUseB (name : String) (input : ToolInput) (id : String)
  deriving DecidableEq

/-- Value of the "type" field of a StreamUpdate (claude/types.py, as used by
agent.py and message.py). -/
inductive UType where
  | progress
  | assistant
  | tool_result
  | result
  | error
  | system
  deriving DecidableEq

/-- Dict placed in StreamUpdate.tool_calls.  agent.py stores
{name, input, id} there for tool calls (lines 124-131) and
{tool_use_id, is_error} for tool results (lines 140-152); keys a producer
does not set are modelled by the neutral values "" / [] / false. -/
structure ToolCallInfo where
  name : String
  input : ToolInput
  id : String
  tool_use_id : String
  is_error : Bool
  deriving DecidableEq

/-- StreamUpdate as consumed by the bot handler: its "type", optional text
content (empty list = absent/falsy) and optional tool_calls list. -/
structure StreamUpdate where
  type_ : UType
  content : List Char
  tool_calls : List ToolCallInfo
  deriving DecidableEq

/-- Update yielded for a text delta (agent.py lines 112-115). -/
def textUpdate (delta : List Char) : StreamUpdate :=
  ⟨UType.assistant, delta, []⟩

/-- Update yielded for a ToolUseBlock (agent.py lines 124-131). -/
def toolCallUpdate (name : String) (input : ToolInput) (id : String) : StreamUpdate :=
  ⟨UType.assistant, [], [⟨name, input, id, "", false⟩]⟩

/-- Update yielded for ToolResultBlocks of a UserMessage
(agent.py lines 148-152), here with a single result entry. -/
def toolResultUpdate (tool_use_id : String) (is_err : Bool) : StreamUpdate :=
  ⟨UType.tool_result, [], [⟨"", [], "", tool_use_id, is_err⟩]⟩

/-- Initial progress update (agent.py lines 77-81). -/
def progressUpdate : StreamUpdate :=
  ⟨UType.progress, "Starting Claude Agent...".data, []⟩

/-- Update yielded for a non-error ResultMessage (agent.py lines 165-169). -/
def resultUpdate : StreamUpdate :=
  ⟨UType.result, "Task completed".data, []⟩

/-- Update yielded for an error ResultMessage or a raised exception
(agent.py lines 159-163 and 174-178). -/
def errorUpdate (msg : List Char) : StreamUpdate :=
  ⟨UType.error, msg, []⟩

/-- One iteration of the block loop of stream_message (agent.py lines
102-136): given the session state, the local cursor current_block_index and
the next block, return the new state, the new cursor and the yielded updates.
Blocks with cursor below total_blocks_seen are skipped (lines 104-106); a
TextBlock yields the suffix past the stored cumulative text when that suffix
is nonempty (lines 108-120); a ToolUseBlock yields a tool call, force-sets
total_blocks_seen to the advanced cursor and clears the cumulative text
(lines 122-136). -/
def processBlock (state : SessionState) (cursor : Nat) (b : Block) :
    SessionState × Nat × List StreamUpdate :=
  if cursor < state.total_blocks_seen then
    (state, cursor + 1, [])
  else
    match b with
    | Block.textB t =>
        let delta := t.drop state.current_text_content.length
        if delta = [] then (state, cursor + 1, [])
        else ({ state with current_text_content := t }, cursor + 1, [textUpdate delta])
    | Block.toolUseB name input id =>
        ({ total_blocks_seen := cursor + 1, current_text_content := [] },
          cursor + 1, [toolCallUpdate name input id])

/-- The block loop of stream_message over the content list of one
AssistantMessage (agent.py line 102). -/
def processBlocks : SessionState → Nat → List Block →
    SessionState × Nat × List StreamUpdate
  | st, c, [] => (st, c, [])
  | st, c, b :: bs =>
      let r := processBlock st c b
      let r2 := processBlocks r.1 r.2.1 bs
      (r2.1, r2.2.1, r.2.2 ++ r2.2.2)

/-- Message received from the SDK client (agent.py lines 93-170):
an AssistantMessage with its blocks, a UserMessage carrying the
(tool_use_id, is_error) pairs of its ToolResultBlocks, a ResultMessage,
or a SystemMessage (ignored by the loop). -/
inductive SdkMessage where
  | assistantMsg (content : List Block)
  | userMsg (toolResults : List (String × Bool))
  | resultMsg (is_err : Bool) (res : List Char)
  | systemMsg
  deriving DecidableEq

/-- The message loop of stream_message (agent.py lines 93-170).  A
UserMessage with at least one ToolResultBlock yields one tool_result update
(lines 138-152); a ResultMessage force-sets total_blocks_seen to the current
cursor, yields a result or error update and breaks the loop
(lines 154-170). -/
def processMessages : SessionState → Nat → List SdkMessage →
    SessionState × Nat × List StreamUpdate
  | st, c, [] => (st, c, [])
  | st, c, SdkMessage.assistantMsg blocks :: rest =>
      let r := processBlocks st c blocks
      let r2 := processMessages r.1 r.2.1 rest
      (r2.1, r2.2.1, r.2.2 ++ r2.2.2)
  | st, c, SdkMessage.userMsg results :: rest =>
      let ups :=
        match results with
        | [] => ([] : List StreamUpdate)
        | rs => [⟨UType.tool_result, [],
            rs.map fun r => ⟨"", [], "", r.1, r.2⟩⟩]
      let r2 := processMessages st c rest
      (r2.1, r2.2.1, ups ++ r2.2.2)
  | st, c, SdkMessage.resultMsg is_err res :: _ =>
      ({ st with total_blocks_seen := c }, c,
        [if is_err then errorUpdate res else resultUpdate])
  | st, c, SdkMessage.systemMsg :: rest => processMessages st c rest

/-- One turn of ClaudeAgentClient.stream_message (agent.py lines 39-170)
over the SDK messages received for that turn: the initial progress update
followed by the updates of the message loop, together with the session
state left behind for the next turn. -/
def stream_message (state : SessionState) (msgs : List SdkMessage) :
    SessionState × List StreamUpdate :=
  let r := processMessages state 0 msgs
  (r.1, progressUpdate :: r.2.2)

/-- Text deltas among a list of updates: content of updates of type
"assistant" that carry no tool_calls (the shape produced at agent.py
lines 112-115). -/
def textDeltas (ups : List StreamUpdate) : List (List Char) :=
  ups.filterMap fun u =>
    match u.type_, u.tool_calls with
    | UType.assistant, [] => some u.content
    | _, _ => none

/-- Status of a tool entry of the event log (message.py lines 208-234). -/
inductive EventStatus where
  | running
  | done
  deriving DecidableEq

/-- Entry of stream_state["events"] (message.py lines 204-249): a tool entry
{type, name, input, id, status} or a text entry {type, content}. -/
inductive Event where
  | tool (name : String) (input : ToolInput) (id : String) (status : EventStatus)
  | text (content : List Char)
  deriving DecidableEq

/-- Text-event merge of stream_handler (message.py lines 242-249): append the
new content to the last entry if that entry is text, else append a new text
entry. -/
def appendTextEvent : List Event → List Char → List Event
  | [], c => [Event.text c]
  | [Event.text t], c => [Event.text (t ++ c)]
  | [e], c => [e, Event.text c]
  | e :: es, c => e :: appendTextEvent es c

/-- Tool entries appended for the tool_calls of one assistant update
(message.py lines 206-214), each with status "running". -/
def appendToolEvents (es : List Event) (calls : List ToolCallInfo) : List Event :=
  es ++ calls.map fun tc => Event.tool tc.name tc.input tc.id EventStatus.running

/-- Inner loop of the tool_result branch (message.py lines 222-225): walk the
event list front to back and set the status of the first tool entry whose id
equals tool_id to "done", then stop; the break leaves later entries
untouched. -/
def markToolDone : List Event → String → List Event
  | [], _ => []
  | Event.tool n inp i st :: es, tool_id =>
      if i = tool_id then Event.tool n inp i EventStatus.done :: es
      else Event.tool n inp i st :: markToolDone es tool_id
  | e :: es, tool_id => e :: markToolDone es tool_id

/-- Outer loop of the tool_result branch (message.py lines 220-225), one
markToolDone pass per result dict. -/
def markToolResults (es : List Event) (results : List ToolCallInfo) : List Event :=
  results.foldl (fun acc r => markToolDone acc r.tool_use_id) es

/-- Result branch body (message.py lines 232-234): a still-running tool entry
becomes "done"; every other entry is unchanged. -/
def finishRunning : Event → Event
  | Event.tool n inp i EventStatus.running => Event.tool n inp i EventStatus.done
  | e => e

/-- stream_state as (re)initialised at message.py lines 281-288, the dict in
effect when stream_handler runs.  That dict has no "last_update_time" key
(only the dead first initialisation at lines 187-193 had one), modelled as an
`Option Rat` that starts out `none`; messages holds the handles of sent
Telegram messages and message_contents the content last sent for each. -/
structure StreamState where
  events : List Event
  messages : List Nat
  message_contents : List (List Char)
  last_update_time : Option Rat
  deriving DecidableEq

/-- stream_state right after the initialisation at message.py lines 281-288. -/
def initStreamState : StreamState := ⟨[], [], [], none⟩

/-- Body of stream_handler (message.py lines 195-254) for one StreamUpdate
arriving at event-loop time `now`: returns the new stream_state and whether
_update_stream_message was invoked (a render).  Branches in source order:
assistant with tool_calls appends running tool entries and renders;
tool_result with tool_calls marks entries done and renders; result finishes
all running entries and renders; assistant with (truthy) content merges the
text into the event list and then evaluates the throttle — but reading the
absent "last_update_time" key raises KeyError there (line 252), which the
handler's `except Exception` (line 256) swallows, so on the `none` branch the
event is appended yet no render happens and no key is created; every other
type falls through all branches and does nothing. -/
def stream_handler (s : StreamState) (now : Rat) (u : StreamUpdate) :
    StreamState × Bool :=
  match u.type_ with
  | UType.assistant =>
      match u.tool_calls with
      | [] =>
          match u.content with
          | [] => (s, false)
          | c =>
              let s1 := { s with events := appendTextEvent s.events c }
              match s.last_update_time with
              | none => (s1, false)
              | some t0 =>
                  if (0.5 : Rat) ≤ now - t0 ∨ 50 < c.length then
                    ({ s1 with last_update_time := some now }, true)
                  else (s1, false)
      | calls => ({ s with events := appendToolEvents s.events calls }, true)
  | UType.tool_result =>
      match u.tool_calls with
      | [] => (s, false)
      | results => ({ s with events := markToolResults s.events results }, true)
  | UType.result =>
      ({ s with events := s.events.map finishRunning }, true)
  | _ => (s, false)

/-- stream_handler folded over a turn's timed updates, counting how many of
them invoked _update_stream_message. -/
def runHandler : StreamState → List (Rat × StreamUpdate) → StreamState × Nat
  | s, [] => (s, 0)
  | s, (t, u) :: rest =>
      let r := stream_handler s t u
      let r2 := runHandler r.1 rest
      (r2.1, (if r.2 then 1 else 0) + r2.2)

/-- TOOL_ICONS mapping (message.py lines 291-302). -/
def TOOL_ICONS : List (String × String) :=
  [("Bash", "💻"), ("Read", "📄"), ("ReadFile", "📄"), ("Write", "✏️"),
   ("WriteFile", "✏️"), ("Edit", "📝"), ("EditFile", "📝"), ("Glob", "🔍"),
   ("LS", "📂"), ("ls", "📂")]

/-- TOOL_ICONS.get(tool_name, "🔧") (message.py line 326). -/
def iconFor (name : String) : String :=
  (TOOL_ICONS.lookup name).getD "🔧"

/-- tool_input.get(k) restricted to truthy strings, the way the Python `or`
chains fall through both missing keys and empty strings
(message.py lines 336, 349). -/
def getTruthyStr (inp : ToolInput) (k : String) : Option String :=
  match inp.lookup k with
  | some (IVal.s v) => if v = "" then none else some v
  | _ => none

/-- `details` computed for one tool entry (message.py lines 328-351):
Bash shows its trimmed command truncated to 37 chars plus "..." when longer
than 40; the file tools show the first truthy of path/file_path/file, else
the head of "paths" with a "(+n)" suffix when more follow; Glob shows the
first truthy of pattern/include. -/
def toolDetails (tool_name : String) (tool_input : ToolInput) : String :=
  if tool_name = "Bash" then
    match tool_input.lookup "command" with
    | some (IVal.s c) =>
        let cmd := c.trim
        let cmd := if 40 < cmd.length then String.mk (cmd.data.take 37) ++ "..." else cmd
        ": `" ++ cmd ++ "`"
    | _ => ""
  else if tool_name ∈ ["Read", "ReadFile", "Write", "WriteFile", "Edit", "EditFile"] then
    match getTruthyStr tool_input "path" <|> getTruthyStr tool_input "file_path" <|>
        getTruthyStr tool_input "file" with
    | some p => ": `" ++ p ++ "`"
    | none =>
        match tool_input.lookup "paths" with
        | some (IVal.ls (p :: ps)) =>
            ": `" ++ (p ++ (if 0 < ps.length then " (+" ++ toString ps.length ++ ")" else "")) ++ "`"
        | _ => ""
  else if tool_name = "Glob" then
    match getTruthyStr tool_input "pattern" <|> getTruthyStr tool_input "include" with
    | some pat => ": `" ++ pat ++ "`"
    | none => ""
  else ""

/-- One-line tool summary (message.py lines 319-353):
f"{tool_counter}. {status_icon} {type_icon} **{tool_name}**{details}". -/
def toolLine (tool_counter : Nat) (name : String) (input : ToolInput)
    (status : EventStatus) : String :=
  (toString tool_counter) ++ ". " ++
    (if status = EventStatus.running then "⏳" else "✓") ++ " " ++
    iconFor name ++ " **" ++ name ++ "**" ++ toolDetails name input

/-- message_parts loop of _update_stream_message (message.py lines 313-360),
carrying tool_counter and has_separator: a tool entry contributes its summary
line and clears has_separator; a text entry is preceded by the separator the
first time text follows one or more tools. -/
def buildParts : List Event → Nat → Bool → List (List Char)
  | [], _, _ => []
  | Event.tool n inp _ st :: es, tool_counter, _ =>
      (toolLine (tool_counter + 1) n inp st).data :: buildParts es (tool_counter + 1) false
  | Event.text c :: es, tool_counter, has_separator =>
      if 0 < tool_counter ∧ has_separator = false then
        "\n---\n".data :: c :: buildParts es tool_counter true
      else
        c :: buildParts es tool_counter has_separator

/-- combined_text = "\n".join(message_parts) (message.py line 362). -/
def combinedText (events : List Event) : List Char :=
  List.intercalate "\n".data (buildParts events 0 false)

/-- CHUNK_SIZE constant (message.py line 368): Telegram's limit is 4096, the
code uses 4000 for safety. -/
def CHUNK_SIZE : Nat := 4000

/-- Chunk split (message.py line 369):
[combined_text[i:i+CHUNK_SIZE] for i in range(0, len(combined_text), CHUNK_SIZE)]. -/
def chunksOf : List Char → List (List Char)
  | [] => []
  | c :: cs => (c :: cs).take CHUNK_SIZE :: chunksOf ((c :: cs).drop CHUNK_SIZE)
termination_by s => s.length
decreasing_by
  simp [CHUNK_SIZE]
  omega

/-- Transport primitive invoked for a chunk: an edit_text on an existing
message handle or a reply_text creating a new one. -/
inductive TransportCall where
  | editCall (handle : Nat) (content : List Char)
  | sendCall (handle : Nat) (content : List Char)
  deriving DecidableEq

/-- Per-chunk loop of _update_stream_message (message.py lines 372-398).
`editOk` is the transport oracle saying whether an edit_text call succeeds;
`fresh` numbers newly created message handles; `i` is the enumerate index.
Returns the final messages list, the final message_contents list, and the
transport calls made, each tagged with its chunk index.  A chunk whose
content equals the recorded message_contents entry is skipped with no call
(lines 375-377); an existing handle is edited, and a failed edit is swallowed
leaving message_contents unchanged (lines 379-390); past the end of messages
a new message is sent and its handle and content recorded
(lines 391-398). -/
def renderChunks (editOk : Nat → List Char → Bool) :
    List Nat → List (List Char) → Nat → Nat → List (List Char) →
    List Nat × List (List Char) × List (Nat × TransportCall)
  | msgs, conts, _, _, [] => (msgs, conts, [])
  | msgs, conts, fresh, i, chunk :: rest =>
      if h : i < msgs.length then
        if i < conts.length ∧ conts[i]? = some chunk then
          renderChunks editOk msgs conts fresh (i + 1) rest
        else
          if editOk msgs[i] chunk then
            let conts2 := if i < conts.length then conts.set i chunk else conts ++ [chunk]
            let r := renderChunks editOk msgs conts2 fresh (i + 1) rest
            (r.1, r.2.1, (i, TransportCall.editCall msgs[i] chunk) :: r.2.2)
          else
            let r := renderChunks editOk msgs conts fresh (i + 1) rest
            (r.1, r.2.1, (i, TransportCall.editCall msgs[i] chunk) :: r.2.2)
      else
        let r := renderChunks editOk (msgs ++ [fresh]) (conts ++ [chunk]) (fresh + 1) (i + 1) rest
        (r.1, r.2.1, (i, TransportCall.sendCall fresh chunk) :: r.2.2)

/-- Abstract step of handle_text_message around one turn
(message.py lines 412-527). -/
inductive DriverAction where
  | startTyping
  | runAgentStream
  | setSessionId
  | saveInteraction
  | formatResponse
  | cancelTyping
  | awaitTypingDone
  | sendResponses
  | renderFlush
  deriving DecidableEq

/-- How the try block of handle_text_message ends (message.py lines 415-467):
run_command returned, raised ClaudeToolValidationError, or raised any other
exception. -/
inductive TurnOutcome where
  | success
  | toolValidationError
  | genericError
  deriving DecidableEq

/-- Action sequence of handle_text_message around the agent turn
(message.py lines 412-527), per outcome of the try block.  The typing task is
started before the try (line 412); the except branches build the formatted
error response (lines 445-467); the finally block cancels the typing task and
awaits it (lines 469-475) and, on success, formats the response
(lines 477-493); the response sending comes after the finally
(lines 495-527).  No branch performs a render flush after the stream. -/
def turnExitTrace : TurnOutcome → List DriverAction
  | TurnOutcome.success =>
      [DriverAction.startTyping, DriverAction.runAgentStream,
       DriverAction.setSessionId, DriverAction.saveInteraction,
       DriverAction.cancelTyping, DriverAction.awaitTypingDone,
       DriverAction.formatResponse, DriverAction.sendResponses]
  | TurnOutcome.toolValidationError =>
      [DriverAction.startTyping, DriverAction.runAgentStream,
       DriverAction.formatResponse,
       DriverAction.cancelTyping, DriverAction.awaitTypingDone,
       DriverAction.sendResponses]
  | TurnOutcome.genericError =>
      [DriverAction.startTyping, DriverAction.runAgentStream,
       DriverAction.formatResponse,
       DriverAction.cancelTyping, DriverAction.awaitTypingDone,
       DriverAction.sendResponses]

/-- Tool entry match used by the tool_result branch (message.py line 223):
the entry is a tool entry and its id equals tool_id. -/
def eventMatches : Event → String → Bool
  | Event.tool _ _ i _, tool_id => i = tool_id
  | _, _ => false

/- Helper lemmas. -/

theorem markToolDone_no_match (tid : String) :
    ∀ (es : List Event), (∀ ev ∈ es, eventMatches ev tid = false) →
      markToolDone es tid = es := by
  intro es
  induction es with
  | nil => intro _; rfl
  | cons ev rest ih =>
      intro h
      cases ev with
      | tool n inp i st =>
          have hm := h (Event.tool n inp i st) (by simp)
          have hne : ¬ i = tid := by
            intro he
            simp [eventMatches, he] at hm
          simp only [markToolDone, if_neg hne]
          rw [ih fun e he => h e (by simp [he])]
      | text c =>
          simp only [markToolDone]
          rw [ih fun e he => h e (by simp [he])]

theorem markToolDone_first (tid : String) (n : String) (inp : ToolInput)
    (st : EventStatus) (post : List Event) :
    ∀ (pre : List Event), (∀ ev ∈ pre, eventMatches ev tid = false) →
      markToolDone (pre ++ Event.tool n inp tid st :: post) tid
        = pre ++ Event.tool n inp tid EventStatus.done :: post := by
  intro pre
  induction pre with
  | nil => intro _; simp [markToolDone]
  | cons ev rest ih =>
      intro h
      cases ev with
      | tool n2 inp2 i2 st2 =>
          have hm := h (Event.tool n2 inp2 i2 st2) (by simp)
          have hne : ¬ i2 = tid := by
            intro he
            simp [eventMatches, he] at hm
          simp only [List.cons_append, markToolDone, if_neg hne, List.append_eq]
          rw [ih fun e he => h e (by simp [he])]
      | text c =>
          simp only [List.cons_append, markToolDone, List.append_eq]
          rw [ih fun e he => h e (by simp [he])]

theorem processBlocks_skip (first : List Block) :
    ∀ (st : SessionState) (c : Nat) (rest : List Block),
      c + first.length ≤ st.total_blocks_seen →
      processBlocks st c (first ++ rest) = processBlocks st (c + first.length) rest := by
  induction first with
  | nil => intro st c rest _; simp [processBlocks]
  | cons b bs ih =>
      intro st c rest h
      simp only [List.length_cons] at h
      have hc : c < st.total_blocks_seen := by omega
      have heq : c + (bs.length + 1) = (c + 1) + bs.length := by omega
      simp only [List.cons_append, processBlocks, processBlock, if_pos hc,
        List.length_cons, heq, List.append_eq]
      rw [ih st (c + 1) rest (by omega)]
      simp

theorem processBlocks_text_chain (ts : List (List Char)) :
    ∀ (cum : List Char) (cursor : Nat),
      List.Chain (fun a b => a <+: b) cum ts →
      (processBlocks ⟨0, cum⟩ cursor (ts.map Block.textB)).1 = ⟨0, ts.getLastD cum⟩ ∧
      cum ++ (textDeltas (processBlocks ⟨0, cum⟩ cursor (ts.map Block.textB)).2.2).flatten
        = ts.getLastD cum := by
  induction ts with
  | nil =>
      intro cum cursor _
      simp [processBlocks, textDeltas]
  | cons t rest ih =>
      intro cum cursor hchain
      rw [List.chain_cons] at hchain
      obtain ⟨⟨r, rfl⟩, hchain2⟩ := hchain
      by_cases hr : r = []
      · subst hr
        have hstep : processBlock ⟨0, cum⟩ cursor (Block.textB cum)
            = (⟨0, cum⟩, cursor + 1, []) := by
          simp [processBlock]
        have h2 := ih cum (cursor + 1) (by simpa using hchain2)
        simp only [List.append_nil, List.map_cons, processBlocks, hstep,
          List.nil_append, List.getLastD_cons] at h2 ⊢
        exact h2
      · have hstep : processBlock ⟨0, cum⟩ cursor (Block.textB (cum ++ r))
            = (⟨0, cum ++ r⟩, cursor + 1, [textUpdate r]) := by
          simp [processBlock, hr]
        have h2 := ih (cum ++ r) (cursor + 1) hchain2
        simp only [List.map_cons, processBlocks, hstep, List.getLastD_cons] at h2 ⊢
        refine ⟨h2.1, ?_⟩
        have hjoin : textDeltas (textUpdate r ::
            (processBlocks ⟨0, cum ++ r⟩ (cursor + 1) (rest.map Block.textB)).2.2)
            = r :: textDeltas
                (processBlocks ⟨0, cum ++ r⟩ (cursor + 1) (rest.map Block.textB)).2.2 := by
          simp [textDeltas, textUpdate]
        simp only [List.singleton_append, hjoin, List.flatten_cons,
          ← List.append_assoc]
        exact h2.2

theorem chunksOf_flatten (s : List Char) : (chunksOf s).flatten = s := by
  induction s using chunksOf.induct with
  | case1 => simp [chunksOf]
  | case2 c cs ih =>
      rw [chunksOf]
      simp [ih]

theorem chunksOf_length (s : List Char) :
    (chunksOf s).length = (s.length + (CHUNK_SIZE - 1)) / CHUNK_SIZE := by
  induction s using chunksOf.induct with
  | case1 => simp [chunksOf, CHUNK_SIZE]
  | case2 c cs ih =>
      rw [chunksOf]
      simp only [List.length_cons, ih, List.length_drop]
      simp only [CHUNK_SIZE, List.length_cons]
      omega

theorem chunksOf_getElem (s : List Char) :
    ∀ (i : Nat), i < (chunksOf s).length →
      (chunksOf s)[i]? = some ((s.drop (CHUNK_SIZE * i)).take CHUNK_SIZE) := by
  induction s using chunksOf.induct with
  | case1 => intro i hi; simp [chunksOf] at hi
  | case2 c cs ih =>
      intro i hi
      rw [chunksOf] at hi ⊢
      cases i with
      | zero => simp
      | succ j =>
          simp only [List.length_cons] at hi
          have hj := ih j (by omega)
          simp only [List.getElem?_cons_succ, hj, List.drop_drop]
          have harith : CHUNK_SIZE + CHUNK_SIZE * j = CHUNK_SIZE * (j + 1) := by
            ring
          rw [harith]

theorem chunksOf_mem_length (s : List Char) :
    ∀ ch ∈ chunksOf s, ch.length ≤ CHUNK_SIZE := by
  induction s using chunksOf.induct with
  | case1 => intro ch hch; simp [chunksOf] at hch
  | case2 c cs ih =>
      intro ch hch
      rw [chunksOf] at hch
      simp only [List.mem_cons] at hch
      rcases hch with rfl | hch
      · simp only [List.length_take]
        omega
      · exact ih ch hch

theorem renderChunks_untouched (editOk : Nat → List Char → Bool) :
    ∀ (chunks : List (List Char)) (msgs : List Nat) (conts : List (List Char))
      (fresh i : Nat),
      msgs <+: (renderChunks editOk msgs conts fresh i chunks).1 ∧
      ∀ p ∈ (renderChunks editOk msgs conts fresh i chunks).2.2,
        p.1 < i + chunks.length := by
  intro chunks
  induction chunks with
  | nil =>
      intro msgs conts fresh i
      exact ⟨List.prefix_refl msgs, by simp [renderChunks]⟩
  | cons chunk rest ih =>
      intro msgs conts fresh i
      rw [renderChunks]
      by_cases h : i < msgs.length
      · rw [dif_pos h]
        by_cases hskip : i < conts.length ∧ conts[i]? = some chunk
        · rw [if_pos hskip]
          refine ⟨(ih msgs conts fresh (i + 1)).1, ?_⟩
          intro p hp
          have h2 := (ih msgs conts fresh (i + 1)).2 p hp
          simp only [List.length_cons]
          omega
        · rw [if_neg hskip]
          by_cases hok : editOk msgs[i] chunk
          · rw [if_pos hok]
            refine ⟨(ih msgs _ fresh (i + 1)).1, ?_⟩
            intro p hp
            simp only [List.length_cons, List.mem_cons] at hp ⊢
            rcases hp with hp | hp
            · subst hp; omega
            · have := (ih msgs _ fresh (i + 1)).2 p hp
              omega
          · rw [if_neg hok]
            refine ⟨(ih msgs conts fresh (i + 1)).1, ?_⟩
            intro p hp
            simp only [List.length_cons, List.mem_cons] at hp ⊢
            rcases hp with hp | hp
            · subst hp; omega
            · have := (ih msgs conts fresh (i + 1)).2 p hp
              omega
      · rw [dif_neg h]
        have hpre : msgs <+: msgs ++ [fresh] := List.prefix_append msgs [fresh]
        refine ⟨hpre.trans (ih (msgs ++ [fresh]) (conts ++ [chunk]) (fresh + 1) (i + 1)).1, ?_⟩
        intro p hp
        simp only [List.length_cons, List.mem_cons] at hp ⊢
        rcases hp with hp | hp
        · subst hp; omega
        · have := (ih (msgs ++ [fresh]) (conts ++ [chunk]) (fresh + 1) (i + 1)).2 p hp
          omega

theorem textDeltas_append (l1 l2 : List StreamUpdate) :
    textDeltas (l1 ++ l2) = textDeltas l1 ++ textDeltas l2 := by
  simp [textDeltas]

theorem textDeltas_progress_cons (l : List StreamUpdate) :
    textDeltas (progressUpdate :: l) = textDeltas l := by
  simp [textDeltas, progressUpdate]

theorem textDeltas_result_singleton : textDeltas [resultUpdate] = [] := by
  simp [textDeltas, resultUpdate]

/-- C1: for a turn whose stream delivers a sequence of assistant text blocks
with monotonically growing cumulative text (each block's text extends the
previous one, starting from the fresh session's empty cumulative text), the
in-order concatenation of the text deltas emitted by stream_message equals
the final cumulative text exactly — no character duplicated, none dropped;
each delta is the suffix of the block's text past the stored cumulativeText
length (agent.py lines 108-120). -/
theorem text_deltas_concat_exact (ts : List (List Char))
    (hchain : List.Chain (fun a b => a <+: b) [] ts) :
    (textDeltas (stream_message freshSessionState
        [SdkMessage.assistantMsg (ts.map Block.textB),
         SdkMessage.resultMsg false "done".data]).2).flatten
      = ts.getLastD [] := by
  have h := (processBlocks_text_chain ts [] 0 hchain).2
  simp only [List.nil_append] at h
  have hmsg : (stream_message freshSessionState
      [SdkMessage.assistantMsg (ts.map Block.textB),
       SdkMessage.resultMsg false "done".data]).2
      = progressUpdate ::
        ((processBlocks ⟨0, []⟩ 0 (ts.map Block.textB)).2.2 ++ [resultUpdate]) := by
    simp [stream_message, processMessages, freshSessionState]
  rw [hmsg, textDeltas_progress_cons, textDeltas_append, textDeltas_result_singleton,
    List.append_nil]
  exact h

/-- Witness for C1 at the concrete growing text blocks "Hel", "Hello". -/
theorem text_deltas_concat_exact_witness :
    (textDeltas (stream_message freshSessionState
        [SdkMessage.assistantMsg [Block.textB "Hel".data, Block.textB "Hello".data],
         SdkMessage.resultMsg false "done".data]).2).flatten
      = "Hello".data := by
  have h := text_deltas_concat_exact ["Hel".data, "Hello".data]
    (List.Chain.cons ⟨"Hel".data, by decide⟩
      (List.Chain.cons ⟨"lo".data, by decide⟩ List.Chain.nil))
  exact h

/-- C2: for a session whose persisted state records total_blocks_seen = k, a
turn whose stream replays k blocks emits zero updates for them — they are
skipped silently while the local cursor advances and the session state is
untouched — and the turn's emitted updates are exactly those of the blocks
at global index k and beyond (agent.py lines 83-106). -/
theorem replayed_blocks_emit_nothing (st : SessionState) (first rest : List Block)
    (h : st.total_blocks_seen = first.length) :
    processBlocks st 0 (first ++ rest) = processBlocks st first.length rest ∧
    processBlocks st 0 first = (st, first.length, []) := by
  constructor
  · have h2 := processBlocks_skip first st 0 rest (by omega)
    simpa using h2
  · have h2 := processBlocks_skip first st 0 [] (by omega)
    simp only [List.append_nil, Nat.zero_add] at h2
    rw [h2]
    rfl

/-- Witness for C2: a session with two blocks already consumed replays them
plus one new tool block; only the new block's update is emitted. -/
theorem replayed_blocks_emit_nothing_witness :
    processBlocks ⟨2, "xy".data⟩ 0
        ([Block.textB "a".data, Block.toolUseB "T" [] "9"]
          ++ [Block.toolUseB "X" [] "3"])
      = processBlocks ⟨2, "xy".data⟩ 2 [Block.toolUseB "X" [] "3"] ∧
    processBlocks ⟨2, "xy".data⟩ 0 [Block.textB "a".data, Block.toolUseB "T" [] "9"]
      = (⟨2, "xy".data⟩, 2, []) := by
  exact replayed_blocks_emit_nothing ⟨2, "xy".data⟩
    [Block.textB "a".data, Block.toolUseB "T" [] "9"] [Block.toolUseB "X" [] "3"] rfl

/-- C10: an update of type "error" is ignored by the per-turn stream handler:
it matches none of the handler's branches (message.py lines 204-254), so the
event log, the sent-message list, the recorded per-message contents and the
whole stream_state are left exactly as they were and no render is triggered,
whatever content or tool_calls the update carries. -/
theorem error_update_ignored (s : StreamState) (now : Rat) (c : List Char)
    (tcs : List ToolCallInfo) :
    stream_handler s now ⟨UType.error, c, tcs⟩ = (s, false) := rfl

/-- C3 counterexample: with two running tool entries sharing correlation id
"1", a tool_result for "1" flips the FIRST (earliest) entry, not the most
recent one — the loop at message.py lines 222-225 walks the event list front
to back and breaks at the first match, so the most recent matching entry "B"
stays running, contradicting the claim that the most recent matching entry
is the one flipped to done. -/
theorem tool_result_most_recent_cex :
    (stream_handler
        ⟨[Event.tool "A" [] "1" EventStatus.running,
          Event.tool "B" [] "1" EventStatus.running], [], [], none⟩
        0 (toolResultUpdate "1" false)).1.events
      = [Event.tool "A" [] "1" EventStatus.done,
         Event.tool "B" [] "1" EventStatus.running] := by decide

/-- C3 amended: a tool_result update whose correlation id matches at least
one tool entry sets the status of the EARLIEST (first-appended) matching
entry to done, leaving every other entry unchanged; a tool_result whose id
matches no entry changes nothing (and is not fatal — the handler simply
falls through); a turn-result update flips every still-running tool entry to
done, leaving all other entries unchanged (message.py lines 218-236). -/
theorem tool_result_flips_first_match :
    (∀ (s : StreamState) (now : Rat) (tid : String) (e : Bool),
        (∀ ev ∈ s.events, eventMatches ev tid = false) →
        (stream_handler s now (toolResultUpdate tid e)).1.events = s.events) ∧
    (∀ (s : StreamState) (now : Rat) (tid : String) (e : Bool)
        (pre post : List Event) (n : String) (inp : ToolInput) (st : EventStatus),
        s.events = pre ++ Event.tool n inp tid st :: post →
        (∀ ev ∈ pre, eventMatches ev tid = false) →
        (stream_handler s now (toolResultUpdate tid e)).1.events
          = pre ++ Event.tool n inp tid EventStatus.done :: post) ∧
    (∀ (s : StreamState) (now : Rat),
        (stream_handler s now resultUpdate).1.events = s.events.map finishRunning) := by
  refine ⟨?_, ?_, ?_⟩
  · intro s now tid e h
    simp only [stream_handler, toolResultUpdate, markToolResults, List.foldl_cons,
      List.foldl_nil]
    exact markToolDone_no_match tid s.events h
  · intro s now tid e pre post n inp st hs h
    simp only [stream_handler, toolResultUpdate, markToolResults, List.foldl_cons,
      List.foldl_nil, hs]
    exact markToolDone_first tid n inp st post pre h
  · intro s now
    rfl

/-- Witness for C3 amended: a no-match result leaves the log unchanged, a
matching result flips the first match, and a turn-result finishes running
entries. -/
theorem tool_result_flips_first_match_witness :
    (stream_handler ⟨[Event.text "x".data], [], [], none⟩ 0
        (toolResultUpdate "9" false)).1.events = [Event.text "x".data] ∧
    (stream_handler ⟨[Event.text "x".data, Event.tool "A" [] "7" EventStatus.running],
        [], [], none⟩ 0 (toolResultUpdate "7" false)).1.events
      = [Event.text "x".data, Event.tool "A" [] "7" EventStatus.done] ∧
    (stream_handler ⟨[Event.tool "A" [] "7" EventStatus.running], [], [], none⟩ 0
        resultUpdate).1.events = [Event.tool "A" [] "7" EventStatus.done] := by
  refine ⟨tool_result_flips_first_match.1 ⟨[Event.text "x".data], [], [], none⟩ 0 "9" false
      (by decide),
    tool_result_flips_first_match.2.1
      ⟨[Event.text "x".data, Event.tool "A" [] "7" EventStatus.running], [], [], none⟩ 0
      "7" false [Event.text "x".data] [] "A" [] EventStatus.running rfl (by decide),
    ?_⟩
  have h := tool_result_flips_first_match.2.2
    ⟨[Event.tool "A" [] "7" EventStatus.running], [], [], none⟩ 0
  rw [h]
  rfl

/-- C4: the throttle for text renders is dead code.  stream_state is
re-initialised at message.py line 281 without the "last_update_time" key, so
the throttle check at line 252 raises KeyError, which the handler's
except at line 256 swallows: an assistant text update appends its event but
never triggers a render — regardless of how much time has elapsed or how
large its delta is — and the key stays absent, so this holds for every text
update of the turn. -/
theorem text_throttle_dead (s : StreamState) (now : Rat) (c : List Char)
    (h : s.last_update_time = none) :
    (stream_handler s now (textUpdate c)).2 = false ∧
    (stream_handler s now (textUpdate c)).1.last_update_time = none := by
  cases c with
  | nil => simp [stream_handler, textUpdate, h]
  | cons a l => simp [stream_handler, textUpdate, h]

/-- Witness for C4: a text update whose delta has 56 characters (above the
50-character threshold) arriving at loop time 100 still triggers no render,
where the claim demands an immediate render. -/
theorem text_throttle_dead_witness :
    50 < "a large delta of well over fifty characters 0123456789a".data.length ∧
    (stream_handler initStreamState 100
        (textUpdate "a large delta of well over fifty characters 0123456789a".data)).2
      = false := by
  exact ⟨by decide,
    (text_throttle_dead initStreamState 100
      "a large delta of well over fifty characters 0123456789a".data rfl).1⟩

/-- C8 counterexample: a session whose persisted state records
total_blocks_seen = 3 runs a turn whose stream delivers a bare result
message; the force-set at agent.py line 156 assigns the current cursor 0,
strictly lower than the previous value 3 — the counter is not monotonically
non-decreasing. -/
theorem blocks_seen_decreases_cex :
    ((stream_message ⟨3, "ab".data⟩ [SdkMessage.resultMsg false "done".data]).1).total_blocks_seen
      = 0 ∧ (0 : Nat) < 3 := by decide

/-- C8 amended: the per-block operations (skipping a replayed block,
emitting a text delta, surfacing a tool block) never decrease
total_blocks_seen; the force-set performed on a completion/result signal
(agent.py line 156) assigns the current cursor and is therefore
non-decreasing only when the turn's stream has already advanced the cursor
at least to the previously recorded count — with fewer delivered blocks it
decreases the counter. -/
theorem blocks_seen_monotone_amended :
    (∀ (st : SessionState) (c : Nat) (b : Block),
        st.total_blocks_seen ≤ ((processBlock st c b).1).total_blocks_seen) ∧
    (∀ (st : SessionState) (c : Nat) (e : Bool) (res : List Char)
        (tail : List SdkMessage),
        st.total_blocks_seen ≤ c →
        st.total_blocks_seen
          ≤ ((processMessages st c (SdkMessage.resultMsg e res :: tail)).1).total_blocks_seen) := by
  constructor
  · intro st c b
    by_cases hc : c < st.total_blocks_seen
    · simp [processBlock, hc]
    · cases b with
      | textB t =>
          by_cases hd : t.drop st.current_text_content.length = []
          · simp [processBlock, hc, hd]
          · simp [processBlock, hc, hd]
      | toolUseB n inp i =>
          simp only [processBlock, if_neg hc]
          omega
  · intro st c e res tail h
    simpa [processMessages] using h

/-- Witness for C8 amended: a tool block at cursor 5 raises the counter from
3 to 6, and a result force-set at cursor 7 keeps a counter of 3. -/
theorem blocks_seen_monotone_amended_witness :
    (3 : Nat) ≤ ((processBlock ⟨3, []⟩ 5 (Block.toolUseB "T" [] "1")).1).total_blocks_seen ∧
    (3 : Nat) ≤ ((processMessages ⟨3, []⟩ 7
        [SdkMessage.resultMsg false "d".data]).1).total_blocks_seen := by
  exact ⟨blocks_seen_monotone_amended.1 ⟨3, []⟩ 5 (Block.toolUseB "T" [] "1"),
    blocks_seen_monotone_amended.2 ⟨3, []⟩ 7 false "d".data [] (by decide)⟩

/-- C9: processing the updates text "Hel", text "lo", tool-call id 1 name X,
tool-result id 1 from the empty event log leaves exactly two entries — a
text entry "Hello" (the second text event merged into the first) followed by
a tool entry X with status done — and the rendered display text is exactly
"Hello" followed on the next line by the tool's one-line summary. -/
theorem scenario_text_merge_tool_done :
    ((runHandler initStreamState
        [(0, textUpdate "Hel".data), (0, textUpdate "lo".data),
         (0, toolCallUpdate "X" [] "1"), (0, toolResultUpdate "1" false)]).1).events
      = [Event.text "Hello".data, Event.tool "X" [] "1" EventStatus.done] ∧
    combinedText [Event.text "Hello".data, Event.tool "X" [] "1" EventStatus.done]
      = ("Hello" ++ "\n" ++ "1. ✓ 🔧 **X**").data := by decide

/-- C5: for every combined transcript text of length L, the chunk split of
_update_stream_message (message.py lines 367-369) yields exactly
ceil(L / 4000) chunks; chunk i is the contiguous slice of the text from
position i*4000 to (i+1)*4000; no chunk exceeds the 4000-character
CHUNK_SIZE, a constant below the transport's 4096 maximum; and the chunks
concatenate back to the text. -/
theorem chunk_split_spec :
    CHUNK_SIZE = 4000 ∧ CHUNK_SIZE < 4096 ∧
    ∀ s : List Char,
      (chunksOf s).length = (s.length + (CHUNK_SIZE - 1)) / CHUNK_SIZE ∧
      (∀ i : Nat, i < (chunksOf s).length →
        (chunksOf s)[i]? = some ((s.drop (CHUNK_SIZE * i)).take CHUNK_SIZE)) ∧
      (∀ ch ∈ chunksOf s, ch.length ≤ CHUNK_SIZE) ∧
      (chunksOf s).flatten = s := by
  exact ⟨rfl, by decide, fun s =>
    ⟨chunksOf_length s, chunksOf_getElem s, chunksOf_mem_length s, chunksOf_flatten s⟩⟩

/-- Witness for C5 at the concrete combined text "abc". -/
theorem chunk_split_spec_witness :
    (chunksOf "abc".data).length = ("abc".data.length + (CHUNK_SIZE - 1)) / CHUNK_SIZE ∧
    (chunksOf "abc".data)[0]? = some (("abc".data.drop (CHUNK_SIZE * 0)).take CHUNK_SIZE) ∧
    (("abc".data.drop (CHUNK_SIZE * 0)).take CHUNK_SIZE).length ≤ CHUNK_SIZE ∧
    (chunksOf "abc".data).flatten = "abc".data := by
  have h := chunk_split_spec.2.2 "abc".data
  have h0 : 0 < (chunksOf "abc".data).length := by
    rw [h.1]
    decide
  have hget := h.2.1 0 h0
  exact ⟨h.1, hget, h.2.2.1 _ (List.getElem?_mem hget), h.2.2.2⟩

/-- C6 counterexample: a failed edit is NOT treated as permanently failed.
With one existing message (handle 7, recorded content "old") and one chunk
"A", a pass whose edit fails makes the edit call and leaves the recorded
content unchanged; a second identical pass then attempts the very same edit
again — the chunk is retried, contradicting the claim that after a failed
edit the chunk is never retried for the remainder of the turn
(message.py lines 379-390 swallow the failure without recording anything). -/
theorem edit_failure_retried_cex :
    (renderChunks (fun _ _ => false) [7] ["old".data] 8 0 ["A".data]).2.2
      = [(0, TransportCall.editCall 7 "A".data)] ∧
    (renderChunks (fun _ _ => false) [7] ["old".data] 8 0 ["A".data]).2.1
      = ["old".data] ∧
    (renderChunks (fun _ _ => false) [7]
        (renderChunks (fun _ _ => false) [7] ["old".data] 8 0 ["A".data]).2.1
        8 0 ["A".data]).2.2
      = [(0, TransportCall.editCall 7 "A".data)] := by decide

/-- C6 amended: per render pass and chunk index i — if chunk i equals the
content recorded as sent for message i, no transport call is made for it; if
a message handle exists at i and the content differs, edit is called once,
and on failure the recorded content is left unchanged (so the chunk is
attempted again on later passes rather than being permanently abandoned); on
success the recorded content is updated; if no message exists at i, send is
called once and the new handle and content are recorded; existing message
handles are never removed (the old list is a prefix of the new one) and no
transport call addresses an index beyond the current chunks
(message.py lines 372-398). -/
theorem render_pass_per_chunk :
    (∀ (ok : Nat → List Char → Bool) (msgs : List Nat) (conts : List (List Char))
        (fresh i : Nat) (chunk : List Char) (rest : List (List Char)),
        i < msgs.length → i < conts.length → conts[i]? = some chunk →
        renderChunks ok msgs conts fresh i (chunk :: rest)
          = renderChunks ok msgs conts fresh (i + 1) rest) ∧
    (∀ (ok : Nat → List Char → Bool) (msgs : List Nat) (conts : List (List Char))
        (fresh i : Nat) (chunk : List Char) (rest : List (List Char))
        (h : i < msgs.length),
        ¬ (i < conts.length ∧ conts[i]? = some chunk) →
        ok msgs[i] chunk = false →
        renderChunks ok msgs conts fresh i (chunk :: rest)
          = ((renderChunks ok msgs conts fresh (i + 1) rest).1,
             (renderChunks ok msgs conts fresh (i + 1) rest).2.1,
             (i, TransportCall.editCall msgs[i] chunk)
               :: (renderChunks ok msgs conts fresh (i + 1) rest).2.2)) ∧
    (∀ (ok : Nat → List Char → Bool) (msgs : List Nat) (conts : List (List Char))
        (fresh i : Nat) (chunk : List Char) (rest : List (List Char))
        (h : i < msgs.length),
        ¬ (i < conts.length ∧ conts[i]? = some chunk) →
        ok msgs[i] chunk = true →
        renderChunks ok msgs conts fresh i (chunk :: rest)
          = ((renderChunks ok msgs
                (if i < conts.length then conts.set i chunk else conts ++ [chunk])
                fresh (i + 1) rest).1,
             (renderChunks ok msgs
                (if i < conts.length then conts.set i chunk else conts ++ [chunk])
                fresh (i + 1) rest).2.1,
             (i, TransportCall.editCall msgs[i] chunk)
               :: (renderChunks ok msgs
                    (if i < conts.length then conts.set i chunk else conts ++ [chunk])
                    fresh (i + 1) rest).2.2)) ∧
    (∀ (ok : Nat → List Char → Bool) (msgs : List Nat) (conts : List (List Char))
        (fresh i : Nat) (chunk : List Char) (rest : List (List Char)),
        ¬ i < msgs.length →
        renderChunks ok msgs conts fresh i (chunk :: rest)
          = ((renderChunks ok (msgs ++ [fresh]) (conts ++ [chunk]) (fresh + 1) (i + 1) rest).1,
             (renderChunks ok (msgs ++ [fresh]) (conts ++ [chunk]) (fresh + 1) (i + 1) rest).2.1,
             (i, TransportCall.sendCall fresh chunk)
               :: (renderChunks ok (msgs ++ [fresh]) (conts ++ [chunk]) (fresh + 1) (i + 1) rest).2.2)) ∧
    (∀ (ok : Nat → List Char → Bool) (msgs : List Nat) (conts : List (List Char))
        (fresh i : Nat) (chunks : List (List Char)),
        msgs <+: (renderChunks ok msgs conts fresh i chunks).1 ∧
        ∀ p ∈ (renderChunks ok msgs conts fresh i chunks).2.2, p.1 < i + chunks.length) := by
  refine ⟨?_, ?_, ?_, ?_, ?_⟩
  · intro ok msgs conts fresh i chunk rest h1 h2 h3
    rw [renderChunks, dif_pos h1, if_pos ⟨h2, h3⟩]
  · intro ok msgs conts fresh i chunk rest h hskip hok
    rw [renderChunks, dif_pos h, if_neg hskip, if_neg (by simp [hok])]
  · intro ok msgs conts fresh i chunk rest h hskip hok
    rw [renderChunks, dif_pos h, if_neg hskip, if_pos (by simp [hok])]
  · intro ok msgs conts fresh i chunk rest h
    rw [renderChunks, dif_neg h]
  · intro ok msgs conts fresh i chunks
    exact renderChunks_untouched ok chunks msgs conts fresh i

/-- Witness for C6 amended: the four per-chunk behaviours at concrete
states. -/
theorem render_pass_per_chunk_witness :
    renderChunks (fun _ _ => true) [5] ["A".data] 9 0 ["A".data]
      = renderChunks (fun _ _ => true) [5] ["A".data] 9 1 [] ∧
    renderChunks (fun _ _ => false) [7] ["old".data] 8 0 ["B".data]
      = ((renderChunks (fun _ _ => false) [7] ["old".data] 8 1 []).1,
         (renderChunks (fun _ _ => false) [7] ["old".data] 8 1 []).2.1,
         (0, TransportCall.editCall 7 "B".data)
           :: (renderChunks (fun _ _ => false) [7] ["old".data] 8 1 []).2.2) ∧
    renderChunks (fun _ _ => true) [7] ["old".data] 8 0 ["B".data]
      = ((renderChunks (fun _ _ => true) [7]
            (if 0 < ["old".data].length then ["old".data].set 0 "B".data
             else ["old".data] ++ ["B".data]) 8 1 []).1,
         (renderChunks (fun _ _ => true) [7]
            (if 0 < ["old".data].length then ["old".data].set 0 "B".data
             else ["old".data] ++ ["B".data]) 8 1 []).2.1,
         (0, TransportCall.editCall 7 "B".data)
           :: (renderChunks (fun _ _ => true) [7]
                (if 0 < ["old".data].length then ["old".data].set 0 "B".data
                 else ["old".data] ++ ["B".data]) 8 1 []).2.2) ∧
    renderChunks (fun _ _ => true) [] [] 8 0 ["B".data]
      = ((renderChunks (fun _ _ => true) [8] ["B".data] 9 1 []).1,
         (renderChunks (fun _ _ => true) [8] ["B".data] 9 1 []).2.1,
         (0, TransportCall.sendCall 8 "B".data)
           :: (renderChunks (fun _ _ => true) [8] ["B".data] 9 1 []).2.2) := by
  refine ⟨render_pass_per_chunk.1 (fun _ _ => true) [5] ["A".data] 9 0 "A".data []
      (by decide) (by decide) (by decide),
    render_pass_per_chunk.2.1 (fun _ _ => false) [7] ["old".data] 8 0 "B".data []
      (by decide) (by decide) rfl,
    render_pass_per_chunk.2.2.1 (fun _ _ => true) [7] ["old".data] 8 0 "B".data []
      (by decide) (by decide) rfl,
    render_pass_per_chunk.2.2.2.1 (fun _ _ => true) [] [] 8 0 "B".data []
      (by decide)⟩

/-- C7 counterexample: on the terminal error exit path there is no final
render flush — a terminal error stream update produces no render from the
handler (it matches no branch), and the teardown path of handle_text_message
performs no render flush either, contradicting the claim that one final
unthrottled render flush is performed on every exit path. -/
theorem no_flush_on_error_exit_cex :
    (stream_handler ⟨[Event.text "hi".data], [], [], none⟩ 5
        (errorUpdate "boom".data)).2 = false ∧
    DriverAction.renderFlush ∉ turnExitTrace TurnOutcome.genericError := by decide

/-- C7 amended: on every exit path of the turn (success, tool-validation
error, generic exception) the keep-alive typing task is cancelled and its
cancellation awaited before the handler proceeds to response sending
(message.py lines 469-475, the finally block); a final unthrottled render
occurs only through the handler's result branch — a turn-result update
always triggers an immediate render, while a terminal error update triggers
none, and no exit path performs a render flush after the stream. -/
theorem keepalive_cancelled_flush_on_result_only :
    (∀ o : TurnOutcome, ∃ pre post : List DriverAction,
        turnExitTrace o
          = pre ++ [DriverAction.cancelTyping, DriverAction.awaitTypingDone] ++ post ∧
        DriverAction.sendResponses ∉ pre) ∧
    (∀ o : TurnOutcome, DriverAction.renderFlush ∉ turnExitTrace o) ∧
    (∀ (s : StreamState) (now : Rat), (stream_handler s now resultUpdate).2 = true) ∧
    (∀ (s : StreamState) (now : Rat) (c : List Char),
        (stream_handler s now (errorUpdate c)).2 = false) := by
  refine ⟨?_, ?_, ?_, ?_⟩
  · intro o
    cases o with
    | success =>
        exact ⟨[DriverAction.startTyping, DriverAction.runAgentStream,
          DriverAction.setSessionId, DriverAction.saveInteraction],
          [DriverAction.formatResponse, DriverAction.sendResponses], rfl, by decide⟩
    | toolValidationError =>
        exact ⟨[DriverAction.startTyping, DriverAction.runAgentStream,
          DriverAction.formatResponse], [DriverAction.sendResponses], rfl, by decide⟩
    | genericError =>
        exact ⟨[DriverAction.startTyping, DriverAction.runAgentStream,
          DriverAction.formatResponse], [DriverAction.sendResponses], rfl, by decide⟩
  · intro o
    cases o <;> decide
  · intro s now
    rfl
  · intro s now c
    rfl
